import Mathlib

/-
Verification of `analyze_spreadsheet_agent.py`, a thin orchestration script
that uploads a spreadsheet to a remote agent service, submits a question,
waits for the remote job, and materializes the job's output artifacts to the
current working directory.

The script is embedded as a pure function over an explicit environment `Env`
standing for the injected remote service and the local file system.  Every
externally visible action (network request, print, disk write) is recorded as
an `Event` in a trace, and the local disk is threaded through explicitly as an
association list from path to content.  All paths are interpreted relative to
the process's current working directory, so the workbook path (when relative)
and the artifact filenames live in one namespace, exactly as in the script.

The vendor SDK call `client.threads.runs.create_and_poll` is not part of this
repository; its polling semantics are modelled from the spec (see
`awaitCompletion` below).  Everything else is translated directly from
`src/analyze_spreadsheet_agent.py`.
-/

set_option maxRecDepth 8192

namespace SpreadsheetAgent

/-- Status of the remote job, following the spec's state machine
`created → queued → running → (succeeded | failed | cancelled | expired)`. -/
inductive JobStatus where
  | queued
  | running
  | succeeded
  | failed
  | cancelled
  | expired
  deriving DecidableEq, Repr

/-- The four right-hand states of the spec's state machine are terminal. -/
def JobStatus.isTerminal : JobStatus → Bool
  | .succeeded => true
  | .failed => true
  | .cancelled => true
  | .expired => true
  | _ => false

/-- One entry of the `tools` list passed to `client.agents.create`; in the
script the single entry is the dictionary with type "code_interpreter". -/
structure ToolSpec where
  type : String
  deriving DecidableEq, Repr

/-- The payload of `client.agents.create`. -/
structure AgentReq where
  name : String
  model : String
  instructions : String
  tools : List ToolSpec
  deriving DecidableEq, Repr

/-- One item of `run.output`.  The script inspects `item.type` (skipping
anything other than "output_file"), `item.file_id` and `item.filename`;
`filename` is `none` when the remote supplies no suggested filename
(Python `None`). -/
structure OutputItem where
  type : String
  file_id : String
  filename : Option String
  deriving DecidableEq, Repr

/-- Externally visible actions of one invocation, in program order.
`filesCreate`, `agentsCreate`, `threadsCreate`, `messagesCreate`,
`runsCreate`, `runsPoll` and `filesContent` are network calls; `writeFile`
is a local disk write (Python `open(filename, "wb")` plus `f.write`);
`printText` and `printSaved` are console prints. -/
inductive Event where
  | filesCreate (path purpose : String)
  | agentsCreate (req : AgentReq)
  | threadsCreate
  | messagesCreate (thread_id role text : String) (attachments : List String)
  | runsCreate (thread_id agent_id : String)
  | runsPoll (i : Nat)
  | printText (text : String)
  | filesContent (file_id : String)
  | writeFile (filename content : String)
  | printSaved (filename : String)
  deriving DecidableEq, Repr

/-- Errors the script can surface.  `invalidInput` embeds the
`FileNotFoundError`/`PermissionError` raised by `open(workbook, "rb")`
(the spec's `InvalidInputError`); `jobFailed` and `timeout` are the spec's
`JobFailedError` and `TimeoutError` raised from the polling wait.  Transport
failures of individual calls are outside this model: the environment answers
every request. -/
inductive RunError where
  | invalidInput
  | jobFailed (status : JobStatus)
  | timeout
  deriving DecidableEq, Repr

/-- Result of the polling wait: the terminal status reached (with the number
of polls made and wall-clock time elapsed), a non-success terminal status, or
deadline exhaustion. -/
inductive PollOutcome where
  | completed (polls elapsed : Nat)
  | jobFailed (status : JobStatus) (polls elapsed : Nat)
  | timedOut (polls elapsed : Nat)
  deriving DecidableEq, Repr

/-- Wall-clock time at which the polling wait returned. -/
def PollOutcome.elapsedTime : PollOutcome → Nat
  | .completed _ e => e
  | .jobFailed _ _ e => e
  | .timedOut _ e => e

/-- Number of status queries the polling wait made. -/
def PollOutcome.pollCount : PollOutcome → Nat
  | .completed p _ => p
  | .jobFailed _ p _ => p
  | .timedOut p _ => p

/-- Modelled from the spec: the polling loop inside the vendor SDK call
`client.threads.runs.create_and_poll`, which is not code of this repository.
Per the spec's `AwaitCompletion`, each iteration is a blocking wait of
`pollInterval` followed by one status check; the `i`-th check observes
`statuses i`.  Arguments: remaining permitted polls, index of the next poll,
elapsed wall-clock time. -/
def pollRun (statuses : Nat → JobStatus) (pollInterval : Nat) :
    Nat → Nat → Nat → PollOutcome
  | 0, i, elapsed => .timedOut i elapsed
  | fuel + 1, i, elapsed =>
    let t := elapsed + pollInterval
    let s := statuses i
    if s = .succeeded then .completed (i + 1) t
    else if s.isTerminal then .jobFailed s (i + 1) t
    else pollRun statuses pollInterval fuel (i + 1) t

/-- Modelled from the spec: `AwaitCompletion(job, pollInterval, timeout)`.
Polls at `pollInterval` cadence until a terminal status or until the deadline;
the poll budget `timeout / pollInterval + 1` is the largest number of sleeps
that can start before `timeout` has elapsed, so the wait returns within
`timeout + pollInterval` of being called. -/
def awaitCompletion (statuses : Nat → JobStatus) (pollInterval timeout : Nat) :
    PollOutcome :=
  pollRun statuses pollInterval (timeout / pollInterval + 1) 0 0

/-- Local disk (and destination directory) as an association list from
CWD-relative path to file content. -/
abbrev Disk := List (String × String)

/-- First-match lookup in an association list. -/
def lookup : Disk → String → Option String
  | [], _ => none
  | (k', v) :: rest, k => if k' = k then some v else lookup rest k

/-- `open(path, "wb")` followed by `write(content)`: replaces the content of
an existing entry in place, or creates the file. -/
def store : Disk → String → String → Disk
  | [], k, v => [(k, v)]
  | (k', v') :: rest, k, v =>
    if k' = k then (k, v) :: rest else (k', v') :: store rest k v

/-- The environment standing for the vendor service, the local file system and
(for the spec-modelled wait) the polling configuration.  `statuses i` is the
remote job status observed by the `i`-th poll; `fileContent` answers
`client.files.content`; `runOutput` and `outputText` are the `output` and
`output_text` fields of the returned run; `unreadable` lists paths that exist
but cannot be opened for reading. -/
structure Env where
  localDisk : Disk
  unreadable : List String
  uploadedId : String
  agentId : String
  threadId : String
  statuses : Nat → JobStatus
  pollInterval : Nat
  timeout : Nat
  outputText : String
  runOutput : List OutputItem
  fileContent : String → String

/-- `open(path, "rb")`: succeeds with the content iff the path exists and is
readable. -/
def openForRead (env : Env) (path : String) : Option String :=
  if path ∈ env.unreadable then none else lookup env.localDisk path

/-- The agent instructions of the script, passed verbatim to
`client.agents.create` (constant `ANALYST_INSTRUCTIONS` of the source). -/
def ANALYST_INSTRUCTIONS : String := "
You are a meticulous data analyst working ONLY with the Excel workbook available inside the Code Interpreter container.

STEP 1 — PROFILE:
- Use Code Interpreter to open the workbook safely (the file has been uploaded to your container).
- Enumerate sheet names. For each sheet:
  - sample up to 10 rows (head), row count, and column count
  - list columns with inferred dtype (numeric/date/text/categorical) and % missing
  - note likely primary keys or unique identifier columns (if any)
  - detect obvious date columns and normalize to ISO-8601 (YYYY-MM-DD) in memory (do not overwrite original)
- Output a compact JSON object called DATA_DICTIONARY with this structure:
  \x7b
    \"sheets\": [
      \x7b
        \"name\": \"...\",
        \"rows\": 12345,
        \"cols\": 12,
        \"columns\": [
          \x7b\"name\": \"col_a\", \"inferred_type\": \"numeric|date|text|categorical\", \"missing_pct\": 0.12, \"unique_ct\": 999\x7d
        ],
        \"sample\": [ ... up to 10 rows ... ]
      \x7d
    ],
    \"notes\": [\"any parsing warnings or assumptions\"]
  \x7d
- Save this JSON to a file named data_dictionary.json and also print it in the text output.

STEP 2 — PLAN:
- Based on the DATA_DICTIONARY, draft a short PLAN (bulleted) describing how to answer the user question.
- If required columns/sheets are missing or ambiguous, state that clearly and propose fallback options.

STEP 3 — ANSWER:
- Execute the PLAN using pandas. Prefer memory-efficient operations and sampling if the sheet is huge.
- If a plot helps, produce a simple chart (PNG). Titles and axis labels must be clear and short.
- End with a short, actionable TL;DR.

Constraints:
- No external internet access.
- Do not write back to the source file; transformations should be in-memory only.
- Be explicit about any assumptions.
"

/-- The filename the download loop writes to:
`filename = item.filename or f\"\x7bfile_id\x7d\"` — the suggested filename when
it is supplied and truthy (non-empty), otherwise the remote file id. -/
def chosenFilename (it : OutputItem) : String :=
  match it.filename with
  | some s => if s = "" then it.file_id else s
  | none => it.file_id

/-- The download loop of `run_analysis`: for each `item` in `run.output`,
skip it unless `item.type == "output_file"`; otherwise fetch the content by
`client.files.content(file_id)`, write it under `chosenFilename` in the
current working directory, and print a `Saved` line.  Returns the final disk
and the events of the loop in order. -/
def downloadAll (fc : String → String) : List OutputItem → Disk → Disk × List Event
  | [], d => (d, [])
  | it :: items, d =>
    if it.type = "output_file" then
      let fid := it.file_id
      let fname := chosenFilename it
      let content := fc fid
      let rest := downloadAll fc items (store d fname content)
      (rest.1, .filesContent fid :: .writeFile fname content :: .printSaved fname :: rest.2)
    else downloadAll fc items d

/-- The status-query events of a polling wait that made `polls` queries. -/
def pollEvents (polls : Nat) : List Event :=
  (List.range polls).map Event.runsPoll

/-- Everything one invocation of `run_analysis` did: its event trace, the
final local disk, and its result (`ok` or the raised error). -/
structure RunOutcome where
  trace : List Event
  disk : Disk
  result : Except RunError Unit
  deriving Repr

/-- Embedding of `run_analysis(workbook, question, api_key)`:
open the workbook for reading (raising `invalidInput` before any network call
if that fails), upload it with purpose "assistants", create the agent with the
constant configuration, create a thread, append the single user message
carrying the question and the uploaded file id, run `create_and_poll`
(spec-modelled `awaitCompletion`), then print `run.output_text` when truthy
and download the output files.  `api_key` only selects how the client is
constructed and has no observable effect here. -/
def run_analysis (workbook question : String) (_api_key : Option String)
    (env : Env) : RunOutcome :=
  match openForRead env workbook with
  | none => ⟨[], env.localDisk, .error .invalidInput⟩
  | some _ =>
    let agentReq : AgentReq :=
      ⟨"Spreadsheet Analyst", "gpt-4.1", ANALYST_INSTRUCTIONS, [⟨"code_interpreter"⟩]⟩
    let preEvents : List Event :=
      [.filesCreate workbook "assistants",
       .agentsCreate agentReq,
       .threadsCreate,
       .messagesCreate env.threadId "user" question [env.uploadedId],
       .runsCreate env.threadId env.agentId]
    match awaitCompletion env.statuses env.pollInterval env.timeout with
    | .timedOut polls _ =>
      ⟨preEvents ++ pollEvents polls, env.localDisk, .error .timeout⟩
    | .jobFailed s polls _ =>
      ⟨preEvents ++ pollEvents polls, env.localDisk, .error (.jobFailed s)⟩
    | .completed polls _ =>
      let textEvents : List Event :=
        if env.outputText = "" then [] else [.printText env.outputText]
      let dl := downloadAll env.fileContent env.runOutput env.localDisk
      ⟨preEvents ++ pollEvents polls ++ textEvents ++ dl.2, dl.1, .ok ()⟩

/-- The argparse default for `--question`. -/
def defaultQuestion : String := "What insights can you derive from this workbook?"

/-- argparse resolution of the `--question` option: the supplied text, or the
default when the option is absent. -/
def parseQuestion : Option String → String
  | none => defaultQuestion
  | some q => q

/-- Embedding of `main()`: parse the arguments and call `run_analysis` with
the workbook path, the resolved question and the optional api key. -/
def main (workbook : String) (questionOpt api_keyOpt : Option String)
    (env : Env) : RunOutcome :=
  run_analysis workbook (parseQuestion questionOpt) api_keyOpt env

/-- The `(filename, content)` pairs of the disk writes in a trace, in order. -/
def writesOf (tr : List Event) : List (String × String) :=
  tr.filterMap fun e =>
    match e with
    | .writeFile f c => some (f, c)
    | _ => none

/-- The file ids of the `client.files.content` download calls in a trace. -/
def downloadCalls (tr : List Event) : List String :=
  tr.filterMap fun e =>
    match e with
    | .filesContent fid => some fid
    | _ => none

/-- The `(thread_id, role, text, attachments)` of the message-creation calls
in a trace. -/
def messagesOf (tr : List Event) : List (String × String × String × List String) :=
  tr.filterMap fun e =>
    match e with
    | .messagesCreate tid role text att => some (tid, role, text, att)
    | _ => none

/-- The payloads of the agent-creation calls in a trace. -/
def agentReqsOf (tr : List Event) : List AgentReq :=
  tr.filterMap fun e =>
    match e with
    | .agentsCreate req => some req
    | _ => none

/-! ### Lemmas about the polling wait -/

/-- The wall-clock time at which `pollRun` returns exceeds its starting time
by at most one `pollInterval` per permitted poll. -/
theorem pollRun_elapsedTime_le (statuses : Nat → JobStatus) (p : Nat) :
    ∀ fuel i t, (pollRun statuses p fuel i t).elapsedTime ≤ t + fuel * p := by
  intro fuel
  induction fuel with
  | zero => intro i t; simp [pollRun, PollOutcome.elapsedTime]
  | succ n ih =>
    intro i t
    rw [Nat.succ_mul]
    simp only [pollRun]
    split
    · simp only [PollOutcome.elapsedTime]
      exact Nat.add_le_add_left (Nat.le_add_left p (n * p)) t
    · split
      · simp only [PollOutcome.elapsedTime]
        exact Nat.add_le_add_left (Nat.le_add_left p (n * p)) t
      · have h := ih (i + 1) (t + p)
        calc (pollRun statuses p n (i + 1) (t + p)).elapsedTime
            ≤ t + p + n * p := h
          _ = t + (n * p + p) := by ring

/-- If the first terminal status the polls can observe is the `j`-th one,
and it is a non-success terminal status, `pollRun` reports a failed job after
`j + 1` polls. -/
theorem pollRun_fail (statuses : Nat → JobStatus) (p : Nat) :
    ∀ j fuel i t, j < fuel →
      (∀ k, k < j → (statuses (i + k)).isTerminal = false) →
      (statuses (i + j)).isTerminal = true →
      statuses (i + j) ≠ .succeeded →
      pollRun statuses p fuel i t
        = .jobFailed (statuses (i + j)) (i + j + 1) (t + (j + 1) * p) := by
  intro j
  induction j with
  | zero =>
    intro fuel i t hfuel _ hterm hns
    match fuel, hfuel with
    | n + 1, _ =>
      simp only [Nat.add_zero] at hterm hns
      simp [pollRun, hns, hterm]
  | succ m ih =>
    intro fuel i t hfuel hpre hterm hns
    match fuel, hfuel with
    | n + 1, hfuel =>
      have h0 : (statuses i).isTerminal = false := by
        simpa using hpre 0 (Nat.succ_pos m)
      have h0s : ¬ statuses i = JobStatus.succeeded := by
        intro h
        rw [h] at h0
        simp [JobStatus.isTerminal] at h0
      have hstep : pollRun statuses p (n + 1) i t = pollRun statuses p n (i + 1) (t + p) := by
        simp [pollRun, h0s, h0]
      rw [hstep]
      have e1 : i + (m + 1) = i + 1 + m := by omega
      rw [e1] at hterm hns ⊢
      have e2 : t + (m + 1 + 1) * p = t + p + (m + 1) * p := by ring
      rw [e2]
      exact ih n (i + 1) (t + p) (by omega)
        (fun k hk => by
          have h := hpre (k + 1) (by omega)
          rwa [show i + (k + 1) = i + 1 + k by omega] at h)
        hterm hns

/-- If the first terminal status the polls can observe is the `j`-th one and
it is `succeeded`, `pollRun` reports completion after `j + 1` polls. -/
theorem pollRun_succeed (statuses : Nat → JobStatus) (p : Nat) :
    ∀ j fuel i t, j < fuel →
      (∀ k, k < j → (statuses (i + k)).isTerminal = false) →
      statuses (i + j) = .succeeded →
      pollRun statuses p fuel i t = .completed (i + j + 1) (t + (j + 1) * p) := by
  intro j
  induction j with
  | zero =>
    intro fuel i t hfuel _ hs
    match fuel, hfuel with
    | n + 1, _ =>
      simp only [Nat.add_zero] at hs
      simp [pollRun, hs]
  | succ m ih =>
    intro fuel i t hfuel hpre hs
    match fuel, hfuel with
    | n + 1, hfuel =>
      have h0 : (statuses i).isTerminal = false := by
        simpa using hpre 0 (Nat.succ_pos m)
      have h0s : ¬ statuses i = JobStatus.succeeded := by
        intro h
        rw [h] at h0
        simp [JobStatus.isTerminal] at h0
      have hstep : pollRun statuses p (n + 1) i t = pollRun statuses p n (i + 1) (t + p) := by
        simp [pollRun, h0s, h0]
      rw [hstep]
      have e1 : i + (m + 1) = i + 1 + m := by omega
      rw [e1] at hs ⊢
      have e2 : t + (m + 1 + 1) * p = t + p + (m + 1) * p := by ring
      rw [e2]
      exact ih n (i + 1) (t + p) (by omega)
        (fun k hk => by
          have h := hpre (k + 1) (by omega)
          rwa [show i + (k + 1) = i + 1 + k by omega] at h)
        hs

/-- If no permitted poll observes a terminal status, `pollRun` exhausts its
budget and reports a timeout. -/
theorem pollRun_timeout (statuses : Nat → JobStatus) (p : Nat) :
    ∀ fuel i t,
      (∀ k, k < fuel → (statuses (i + k)).isTerminal = false) →
      pollRun statuses p fuel i t = .timedOut (i + fuel) (t + fuel * p) := by
  intro fuel
  induction fuel with
  | zero => intro i t _; simp [pollRun]
  | succ n ih =>
    intro i t hpre
    have h0 : (statuses i).isTerminal = false := by
      simpa using hpre 0 (Nat.succ_pos n)
    have h0s : ¬ statuses i = JobStatus.succeeded := by
      intro h
      rw [h] at h0
      simp [JobStatus.isTerminal] at h0
    have hstep : pollRun statuses p (n + 1) i t = pollRun statuses p n (i + 1) (t + p) := by
      simp [pollRun, h0s, h0]
    rw [hstep]
    have := ih (i + 1) (t + p)
      (fun k hk => by
        have h := hpre (k + 1) (by omega)
        rwa [show i + (k + 1) = i + 1 + k by omega] at h)
    rw [this]
    have e1 : i + 1 + n = i + (n + 1) := by omega
    have e2 : t + p + n * p = t + (n + 1) * p := by ring
    rw [e1, e2]

/-- `awaitCompletion` returns within `timeout + pollInterval` of being
called, whatever statuses the remote reports. -/
theorem awaitCompletion_elapsedTime_le (statuses : Nat → JobStatus)
    (p T : Nat) :
    (awaitCompletion statuses p T).elapsedTime ≤ T + p := by
  have h := pollRun_elapsedTime_le statuses p (T / p + 1) 0 0
  have h2 : (T / p + 1) * p ≤ T + p := by
    rw [Nat.succ_mul]
    exact Nat.add_le_add_right (Nat.div_mul_le_self T p) p
  calc (awaitCompletion statuses p T).elapsedTime
      ≤ 0 + (T / p + 1) * p := h
    _ = (T / p + 1) * p := by ring
    _ ≤ T + p := h2

/-! ### Lemmas about the local disk -/

/-- Reading back after `store`: the stored key has the stored value, every
other key is untouched. -/
theorem lookup_store (d : Disk) (k v k' : String) :
    lookup (store d k v) k' = if k = k' then some v else lookup d k' := by
  induction d with
  | nil => simp [store, lookup]
  | cons kv rest ih =>
    obtain ⟨a, b⟩ := kv
    by_cases hak : a = k
    · subst hak
      simp only [store, if_pos rfl, lookup]
      by_cases hk' : a = k' <;> simp [hk']
    · simp only [store, if_neg hak, lookup]
      by_cases hk' : a = k'
      · subst hk'
        have : ¬ k = a := fun h => hak h.symm
        simp [this]
      · simp [hk', ih]

/-- The value the download loop will leave under path `k`, if any: the
content of the last file-kind item of `items` whose chosen filename is `k`. -/
def lastWrite (fc : String → String) : List OutputItem → String → Option String
  | [], _ => none
  | it :: items, k =>
    match lastWrite fc items k with
    | some v => some v
    | none =>
      if it.type = "output_file" ∧ chosenFilename it = k then some (fc it.file_id)
      else none

/-- Final disk of the download loop, read at one path: the last matching
write if there is one, the original content otherwise. -/
theorem downloadAll_lookup (fc : String → String) :
    ∀ (items : List OutputItem) (d : Disk) (k : String),
      lookup (downloadAll fc items d).1 k
        = Option.or (lastWrite fc items k) (lookup d k) := by
  intro items
  induction items with
  | nil => intro d k; simp [downloadAll, lastWrite]
  | cons it items ih =>
    intro d k
    by_cases h : it.type = "output_file"
    · simp only [downloadAll, if_pos h]
      rw [ih]
      simp only [lastWrite]
      cases hlw : lastWrite fc items k with
      | some v => simp [Option.or]
      | none =>
        simp only [Option.or]
        rw [lookup_store]
        by_cases hk : chosenFilename it = k
        · simp [h, hk]
        · simp [hk]
    · simp only [downloadAll, if_neg h]
      rw [ih]
      simp only [lastWrite]
      cases hlw : lastWrite fc items k with
      | some v => simp
      | none => simp [h]

/-- If no file-kind item targets path `k`, the download loop never writes
there. -/
theorem lastWrite_eq_none (fc : String → String) (k : String) :
    ∀ items : List OutputItem,
      (∀ it ∈ items, it.type = "output_file" → chosenFilename it ≠ k) →
      lastWrite fc items k = none := by
  intro items
  induction items with
  | nil => intro _; simp [lastWrite]
  | cons it items ih =>
    intro h
    simp only [lastWrite]
    rw [ih (fun x hx => h x (List.mem_cons_of_mem it hx))]
    have : ¬ (it.type = "output_file" ∧ chosenFilename it = k) := by
      rintro ⟨h1, h2⟩
      exact h it (List.mem_cons_self it items) h1 h2
    simp [this]

/-! ### Lemmas about the events of the download loop -/

/-- Events a trace can contain after the run was submitted: status polls,
text printing, file downloads, disk writes and `Saved` lines. -/
def isPostEvent : Event → Bool
  | .runsPoll _ => true
  | .printText _ => true
  | .filesContent _ => true
  | .writeFile _ _ => true
  | .printSaved _ => true
  | _ => false

/-- Every event of the download loop is a post-submission event. -/
theorem downloadAll_postEvents (fc : String → String) :
    ∀ (items : List OutputItem) (d : Disk),
      ∀ e ∈ (downloadAll fc items d).2, isPostEvent e = true := by
  intro items
  induction items with
  | nil => intro d e he; simp [downloadAll] at he
  | cons it items ih =>
    intro d e he
    by_cases h : it.type = "output_file"
    · simp only [downloadAll, if_pos h, List.mem_cons] at he
      rcases he with h1 | h1 | h1 | h1
      · subst h1; rfl
      · subst h1; rfl
      · subst h1; rfl
      · exact ih _ e h1
    · simp only [downloadAll, if_neg h] at he
      exact ih d e he

/-- The disk writes of the download loop are exactly the file-kind items of
the output list, in order, each under its chosen filename with its downloaded
content. -/
theorem downloadAll_writesOf (fc : String → String) :
    ∀ (items : List OutputItem) (d : Disk),
      writesOf (downloadAll fc items d).2
        = (items.filter (fun it => it.type == "output_file")).map
            (fun it => (chosenFilename it, fc it.file_id)) := by
  intro items
  induction items with
  | nil => intro d; simp [downloadAll, writesOf]
  | cons it items ih =>
    intro d
    by_cases h : it.type = "output_file"
    · simp only [downloadAll, if_pos h]
      have ih' := ih (store d (chosenFilename it) (fc it.file_id))
      simp only [writesOf, List.filterMap_cons] at ih' ⊢
      simp [List.filter_cons, h, ih']
    · simp only [downloadAll, if_neg h]
      simp [List.filter_cons, h, ih d]

/-- The download calls of the download loop are exactly the file ids of the
file-kind items, in order. -/
theorem downloadAll_downloadCalls (fc : String → String) :
    ∀ (items : List OutputItem) (d : Disk),
      downloadCalls (downloadAll fc items d).2
        = (items.filter (fun it => it.type == "output_file")).map
            (fun it => it.file_id) := by
  intro items
  induction items with
  | nil => intro d; simp [downloadAll, downloadCalls]
  | cons it items ih =>
    intro d
    by_cases h : it.type = "output_file"
    · simp only [downloadAll, if_pos h]
      have ih' := ih (store d (chosenFilename it) (fc it.file_id))
      simp only [downloadCalls, List.filterMap_cons] at ih' ⊢
      simp [List.filter_cons, h, ih']
    · simp only [downloadAll, if_neg h]
      simp [List.filter_cons, h, ih d]

/-! ### Shape of the trace of `run_analysis` -/

/-- A trace of post-submission events contains no message creation. -/
theorem messagesOf_of_postEvents (tr : List Event)
    (h : ∀ e ∈ tr, isPostEvent e = true) : messagesOf tr = [] := by
  simp only [messagesOf, List.filterMap_eq_nil_iff]
  intro e he
  have h1 := h e he
  cases e <;> simp [isPostEvent] at h1 ⊢

/-- A trace of post-submission events contains no agent creation. -/
theorem agentReqsOf_of_postEvents (tr : List Event)
    (h : ∀ e ∈ tr, isPostEvent e = true) : agentReqsOf tr = [] := by
  simp only [agentReqsOf, List.filterMap_eq_nil_iff]
  intro e he
  have h1 := h e he
  cases e <;> simp [isPostEvent] at h1 ⊢

/-- Status polls make no download calls. -/
theorem downloadCalls_pollEvents (polls : Nat) :
    downloadCalls (pollEvents polls) = [] := by
  simp [downloadCalls, pollEvents, List.filterMap_map, Function.comp]

/-- Status polls write nothing to disk. -/
theorem writesOf_pollEvents (polls : Nat) :
    writesOf (pollEvents polls) = [] := by
  simp [writesOf, pollEvents, List.filterMap_map, Function.comp]

/-- The fixed request the script passes to `client.agents.create`. -/
def analystAgentReq : AgentReq :=
  ⟨"Spreadsheet Analyst", "gpt-4.1", ANALYST_INSTRUCTIONS, [⟨"code_interpreter"⟩]⟩

/-- With a readable workbook, the trace of `run_analysis` is the five
submission calls — upload, agent creation, thread creation, the single user
message, run creation — in program order, followed only by post-submission
events (polls, prints, downloads, writes). -/
theorem run_analysis_trace_shape (workbook question : String)
    (key : Option String) (env : Env) (content : String)
    (hopen : openForRead env workbook = some content) :
    ∃ tail, (run_analysis workbook question key env).trace
        = Event.filesCreate workbook "assistants"
          :: Event.agentsCreate analystAgentReq
          :: Event.threadsCreate
          :: Event.messagesCreate env.threadId "user" question [env.uploadedId]
          :: Event.runsCreate env.threadId env.agentId
          :: tail
      ∧ ∀ e ∈ tail, isPostEvent e = true := by
  cases houtcome : awaitCompletion env.statuses env.pollInterval env.timeout with
  | timedOut polls elapsed =>
    refine ⟨pollEvents polls, ?_, ?_⟩
    · simp [run_analysis, hopen, houtcome, analystAgentReq]
    · intro e he
      simp only [pollEvents, List.mem_map] at he
      obtain ⟨i, _, rfl⟩ := he
      rfl
  | jobFailed s polls elapsed =>
    refine ⟨pollEvents polls, ?_, ?_⟩
    · simp [run_analysis, hopen, houtcome, analystAgentReq]
    · intro e he
      simp only [pollEvents, List.mem_map] at he
      obtain ⟨i, _, rfl⟩ := he
      rfl
  | completed polls elapsed =>
    refine ⟨pollEvents polls
        ++ (if env.outputText = "" then [] else [Event.printText env.outputText])
        ++ (downloadAll env.fileContent env.runOutput env.localDisk).2, ?_, ?_⟩
    · simp [run_analysis, hopen, houtcome, analystAgentReq]
    · intro e he
      rcases List.mem_append.mp he with h1 | h1
      · rcases List.mem_append.mp h1 with h2 | h2
        · simp only [pollEvents, List.mem_map] at h2
          obtain ⟨i, _, rfl⟩ := h2
          rfl
        · by_cases ht : env.outputText = ""
          · simp [ht] at h2
          · simp [ht] at h2
            subst h2
            rfl
      · exact downloadAll_postEvents env.fileContent env.runOutput env.localDisk e h1

/-- With a readable workbook, `run_analysis` creates exactly one message:
the user-role message carrying the question and the uploaded file id, on the
created thread. -/
theorem run_analysis_messagesOf (workbook question : String)
    (key : Option String) (env : Env) (content : String)
    (hopen : openForRead env workbook = some content) :
    messagesOf (run_analysis workbook question key env).trace
      = [(env.threadId, "user", question, [env.uploadedId])] := by
  obtain ⟨tail, htr, hpost⟩ :=
    run_analysis_trace_shape workbook question key env content hopen
  rw [htr]
  simp [messagesOf, List.filterMap_cons]
  simpa [messagesOf] using messagesOf_of_postEvents tail hpost

/-- With a readable workbook, `run_analysis` creates exactly one agent, with
the fixed analyst configuration. -/
theorem run_analysis_agentReqsOf (workbook question : String)
    (key : Option String) (env : Env) (content : String)
    (hopen : openForRead env workbook = some content) :
    agentReqsOf (run_analysis workbook question key env).trace
      = [analystAgentReq] := by
  obtain ⟨tail, htr, hpost⟩ :=
    run_analysis_trace_shape workbook question key env content hopen
  rw [htr]
  simp [agentReqsOf, List.filterMap_cons]
  simpa [agentReqsOf] using agentReqsOf_of_postEvents tail hpost

/-! ### Concrete environments used to instantiate the theorems -/

/-- Output list of the spec's success scenario: one text segment and two file
segments, `data_dictionary.json` before `chart.png`. -/
def sampleOutput : List OutputItem :=
  [⟨"output_text", "", none⟩,
   ⟨"output_file", "f1", some "data_dictionary.json"⟩,
   ⟨"output_file", "f2", some "chart.png"⟩]

/-- A run that observes `running, running, succeeded`. -/
def sampleStatuses : Nat → JobStatus := fun i =>
  if i < 2 then .running else .succeeded

/-- Environment of the spec's success scenario: `sales.xlsx` exists, the job
succeeds on the third poll and produces `sampleOutput`. -/
def sampleEnv : Env where
  localDisk := [("sales.xlsx", "workbook-bytes")]
  unreadable := []
  uploadedId := "file-abc"
  agentId := "agent-1"
  threadId := "thread-1"
  statuses := sampleStatuses
  pollInterval := 2
  timeout := 10
  outputText := "Region A led sales."
  runOutput := sampleOutput
  fileContent := fun fid => String.append "content-" fid

/-- Status sequence of the spec's failing scenario:
`queued, running, running, failed`. -/
def failedScenarioStatuses : Nat → JobStatus := fun i =>
  if i = 0 then .queued else if i < 3 then .running else .failed

/-- The success environment, except that the job fails on the fourth poll. -/
def failedEnv : Env := { sampleEnv with statuses := failedScenarioStatuses }

/-- The success environment, except that the job never leaves `running`. -/
def hangingEnv : Env := { sampleEnv with statuses := fun _ => JobStatus.running }

/-- The success environment, except that the single output file carries no
suggested filename. -/
def noNameEnv : Env :=
  { sampleEnv with runOutput := [⟨"output_file", "f7", none⟩] }

/-! ### The claims -/

/-- Claim C1: for every polling outcome in which the job's terminal status is
a non-success state (failed, cancelled or expired), `AwaitCompletion` raises
`JobFailedError` — the wait reports `jobFailed` and the run's result is that
error — and the program makes no file-download calls for that job: the trace
contains no `files.content` call and the local disk is untouched. -/
theorem claim1_job_failure_no_downloads (workbook question : String)
    (key : Option String) (env : Env) (content : String) (j : Nat)
    (hopen : openForRead env workbook = some content)
    (hj : j < env.timeout / env.pollInterval + 1)
    (hpre : ∀ k, k < j → (env.statuses k).isTerminal = false)
    (hterm : (env.statuses j).isTerminal = true)
    (hns : env.statuses j ≠ .succeeded) :
    awaitCompletion env.statuses env.pollInterval env.timeout
        = .jobFailed (env.statuses j) (j + 1) ((j + 1) * env.pollInterval)
    ∧ (run_analysis workbook question key env).result
        = .error (.jobFailed (env.statuses j))
    ∧ downloadCalls (run_analysis workbook question key env).trace = []
    ∧ (run_analysis workbook question key env).disk = env.localDisk := by
  have hpoll : awaitCompletion env.statuses env.pollInterval env.timeout
      = .jobFailed (env.statuses j) (j + 1) ((j + 1) * env.pollInterval) := by
    have h := pollRun_fail env.statuses env.pollInterval j
      (env.timeout / env.pollInterval + 1) 0 0 hj
      (fun k hk => by simpa using hpre k hk)
      (by simpa using hterm) (by simpa using hns)
    simpa [awaitCompletion] using h
  refine ⟨hpoll, ?_, ?_, ?_⟩
  · simp [run_analysis, hopen, hpoll]
  · simp [run_analysis, hopen, hpoll, downloadCalls, pollEvents,
      List.filterMap_map, Function.comp]
  · simp [run_analysis, hopen, hpoll]

/-- Witness for C1, on the spec's scenario `queued, running, running, failed`:
`JobFailedError` after the fourth poll, no file-download calls. -/
theorem claim1_witness :
    openForRead failedEnv "sales.xlsx" = some "workbook-bytes"
    ∧ 3 < failedEnv.timeout / failedEnv.pollInterval + 1
    ∧ (∀ k, k < 3 → (failedEnv.statuses k).isTerminal = false)
    ∧ (failedEnv.statuses 3).isTerminal = true
    ∧ failedEnv.statuses 3 ≠ JobStatus.succeeded
    ∧ awaitCompletion failedEnv.statuses failedEnv.pollInterval failedEnv.timeout
        = .jobFailed (failedEnv.statuses 3) 4 (4 * failedEnv.pollInterval)
    ∧ (run_analysis "sales.xlsx" "q" none failedEnv).result
        = .error (.jobFailed (failedEnv.statuses 3))
    ∧ downloadCalls (run_analysis "sales.xlsx" "q" none failedEnv).trace = [] := by
  have hpre : ∀ k, k < 3 → (failedEnv.statuses k).isTerminal = false := by
    intro k hk
    interval_cases k <;> rfl
  have h := claim1_job_failure_no_downloads "sales.xlsx" "q" none failedEnv
    "workbook-bytes" 3 (by decide) (by decide) hpre (by decide) (by decide)
  exact ⟨by decide, by decide, hpre, by decide, by decide, h.1, h.2.1, h.2.2.1⟩

/-- Claim C2: `AwaitCompletion` returns within `timeout + pollInterval` of
being called for every sequence of status responses; and when the job never
reaches a terminal status it raises `TimeoutError`, the run's result is that
error, and no artifacts are fetched (no `files.content` call, disk
untouched). -/
theorem claim2_termination_and_timeout (workbook question : String)
    (key : Option String) (env : Env) (content : String)
    (hopen : openForRead env workbook = some content)
    (hnt : ∀ i, (env.statuses i).isTerminal = false) :
    (∀ env2 : Env,
      (awaitCompletion env2.statuses env2.pollInterval env2.timeout).elapsedTime
        ≤ env2.timeout + env2.pollInterval)
    ∧ awaitCompletion env.statuses env.pollInterval env.timeout
        = .timedOut (env.timeout / env.pollInterval + 1)
            ((env.timeout / env.pollInterval + 1) * env.pollInterval)
    ∧ (run_analysis workbook question key env).result = .error .timeout
    ∧ downloadCalls (run_analysis workbook question key env).trace = []
    ∧ (run_analysis workbook question key env).disk = env.localDisk := by
  have hpoll : awaitCompletion env.statuses env.pollInterval env.timeout
      = .timedOut (env.timeout / env.pollInterval + 1)
          ((env.timeout / env.pollInterval + 1) * env.pollInterval) := by
    have h := pollRun_timeout env.statuses env.pollInterval
      (env.timeout / env.pollInterval + 1) 0 0
      (fun k _ => by simpa using hnt k)
    simpa [awaitCompletion] using h
  refine ⟨fun env2 => awaitCompletion_elapsedTime_le env2.statuses
      env2.pollInterval env2.timeout, hpoll, ?_, ?_, ?_⟩
  · simp [run_analysis, hopen, hpoll]
  · simp [run_analysis, hopen, hpoll, downloadCalls, pollEvents,
      List.filterMap_map, Function.comp]
  · simp [run_analysis, hopen, hpoll]

/-- Witness for C2, on the spec's scenario of a job that never leaves
`running`: timeout 10, poll interval 2, `TimeoutError`, nothing fetched. -/
theorem claim2_witness :
    openForRead hangingEnv "sales.xlsx" = some "workbook-bytes"
    ∧ (∀ i, (hangingEnv.statuses i).isTerminal = false)
    ∧ awaitCompletion hangingEnv.statuses hangingEnv.pollInterval hangingEnv.timeout
        = .timedOut 6 12
    ∧ (run_analysis "sales.xlsx" "q" none hangingEnv).result = .error .timeout
    ∧ downloadCalls (run_analysis "sales.xlsx" "q" none hangingEnv).trace = [] := by
  have hnt : ∀ i, (hangingEnv.statuses i).isTerminal = false := fun _ => rfl
  have h := claim2_termination_and_timeout "sales.xlsx" "q" none hangingEnv
    "workbook-bytes" (by decide) hnt
  exact ⟨by decide, hnt, h.2.1, h.2.2.1, h.2.2.2.1⟩

/-- Claim C3: when the local input path does not exist or is unreadable, the
run fails with `InvalidInputError` and its trace is empty — in particular no
network call was made — and the disk is untouched. -/
theorem claim3_invalid_input_before_network (workbook question : String)
    (key : Option String) (env : Env)
    (hopen : openForRead env workbook = none) :
    (run_analysis workbook question key env).result = .error .invalidInput
    ∧ (run_analysis workbook question key env).trace = []
    ∧ (run_analysis workbook question key env).disk = env.localDisk := by
  refine ⟨?_, ?_, ?_⟩ <;> simp [run_analysis, hopen]

/-- Witness for C3 at a path absent from the local disk. -/
theorem claim3_witness :
    openForRead sampleEnv "missing.xlsx" = none
    ∧ (run_analysis "missing.xlsx" "q" none sampleEnv).result
        = .error .invalidInput
    ∧ (run_analysis "missing.xlsx" "q" none sampleEnv).trace = [] := by
  have h := claim3_invalid_input_before_network "missing.xlsx" "q" none
    sampleEnv (by decide)
  exact ⟨by decide, h.1, h.2.1⟩

/-- `writesOf` splits over concatenated traces. -/
theorem writesOf_append (a b : List Event) :
    writesOf (a ++ b) = writesOf a ++ writesOf b := by
  simp [writesOf, List.filterMap_append]

/-- With a readable workbook and a successful wait, the disk writes of the
whole run are exactly the file-kind items of the job's output list, in their
order in that list. -/
theorem run_analysis_writesOf (workbook question : String)
    (key : Option String) (env : Env) (content : String) (polls elapsed : Nat)
    (hopen : openForRead env workbook = some content)
    (hpoll : awaitCompletion env.statuses env.pollInterval env.timeout
        = .completed polls elapsed) :
    writesOf (run_analysis workbook question key env).trace
      = (env.runOutput.filter (fun it => it.type == "output_file")).map
          (fun it => (chosenFilename it, env.fileContent it.file_id)) := by
  have htr : (run_analysis workbook question key env).trace
      = [Event.filesCreate workbook "assistants",
         Event.agentsCreate analystAgentReq,
         Event.threadsCreate,
         Event.messagesCreate env.threadId "user" question [env.uploadedId],
         Event.runsCreate env.threadId env.agentId]
        ++ pollEvents polls
        ++ (if env.outputText = "" then [] else [Event.printText env.outputText])
        ++ (downloadAll env.fileContent env.runOutput env.localDisk).2 := by
    simp [run_analysis, hopen, hpoll, analystAgentReq]
  rw [htr, writesOf_append, writesOf_append, writesOf_append,
    writesOf_pollEvents, downloadAll_writesOf]
  have h1 : writesOf [Event.filesCreate workbook "assistants",
      Event.agentsCreate analystAgentReq,
      Event.threadsCreate,
      Event.messagesCreate env.threadId "user" question [env.uploadedId],
      Event.runsCreate env.threadId env.agentId] = [] := rfl
  have h2 : writesOf
      (if env.outputText = "" then [] else [Event.printText env.outputText]) = [] := by
    by_cases ht : env.outputText = "" <;> simp [ht, writesOf]
  rw [h1, h2]
  simp

/-- A recorded disk write comes from a `writeFile` event of the trace. -/
theorem writeFile_mem_of_mem_writesOf (tr : List Event) (f c : String)
    (h : (f, c) ∈ writesOf tr) : Event.writeFile f c ∈ tr := by
  simp only [writesOf, List.mem_filterMap] at h
  obtain ⟨e, he, hmatch⟩ := h
  cases e <;> simp_all

/-- Claim C4: for a job whose terminal status is succeeded, the run writes
exactly the file-kind artifacts of the job's output list, in the order of
that list; artifacts of other kinds (in particular text) produce no files,
and the run's text output is printed when present. -/
theorem claim4_files_exact_and_ordered (workbook question : String)
    (key : Option String) (env : Env) (content : String) (polls elapsed : Nat)
    (hopen : openForRead env workbook = some content)
    (hpoll : awaitCompletion env.statuses env.pollInterval env.timeout
        = .completed polls elapsed) :
    writesOf (run_analysis workbook question key env).trace
      = (env.runOutput.filter (fun it => it.type == "output_file")).map
          (fun it => (chosenFilename it, env.fileContent it.file_id))
    ∧ (env.outputText ≠ "" →
        Event.printText env.outputText
          ∈ (run_analysis workbook question key env).trace) := by
  refine ⟨run_analysis_writesOf workbook question key env content polls elapsed
    hopen hpoll, ?_⟩
  intro ht
  have htr : (run_analysis workbook question key env).trace
      = [Event.filesCreate workbook "assistants",
         Event.agentsCreate analystAgentReq,
         Event.threadsCreate,
         Event.messagesCreate env.threadId "user" question [env.uploadedId],
         Event.runsCreate env.threadId env.agentId]
        ++ pollEvents polls
        ++ (if env.outputText = "" then [] else [Event.printText env.outputText])
        ++ (downloadAll env.fileContent env.runOutput env.localDisk).2 := by
    simp [run_analysis, hopen, hpoll, analystAgentReq]
  rw [htr]
  simp [ht]

/-- Witness for C4 on the spec's success scenario: the text is printed and
exactly `data_dictionary.json` then `chart.png` are written, in that order. -/
theorem claim4_witness :
    openForRead sampleEnv "sales.xlsx" = some "workbook-bytes"
    ∧ awaitCompletion sampleEnv.statuses sampleEnv.pollInterval sampleEnv.timeout
        = .completed 3 6
    ∧ writesOf (run_analysis "sales.xlsx" "q" none sampleEnv).trace
        = [("data_dictionary.json", "content-f1"), ("chart.png", "content-f2")]
    ∧ Event.printText "Region A led sales."
        ∈ (run_analysis "sales.xlsx" "q" none sampleEnv).trace := by
  have h := claim4_files_exact_and_ordered "sales.xlsx" "q" none sampleEnv
    "workbook-bytes" 3 6 (by decide) (by decide)
  refine ⟨by decide, by decide, ?_, h.2 (by decide)⟩
  rw [h.1]
  decide

/-- Claim C5: every file-kind output artifact is written into the destination
directory (the disk of CWD-relative paths) under its chosen filename, which
is the artifact's suggested filename when one is supplied (non-empty) and the
artifact's remote file identifier when none is supplied. -/
theorem claim5_destination_filenames (workbook question : String)
    (key : Option String) (env : Env) (content : String) (polls elapsed : Nat)
    (hopen : openForRead env workbook = some content)
    (hpoll : awaitCompletion env.statuses env.pollInterval env.timeout
        = .completed polls elapsed)
    (it : OutputItem) (hmem : it ∈ env.runOutput)
    (hfile : it.type = "output_file") :
    Event.writeFile (chosenFilename it) (env.fileContent it.file_id)
        ∈ (run_analysis workbook question key env).trace
    ∧ (∀ s, it.filename = some s → s ≠ "" → chosenFilename it = s)
    ∧ (it.filename = none → chosenFilename it = it.file_id) := by
  refine ⟨?_, ?_, ?_⟩
  · apply writeFile_mem_of_mem_writesOf
    rw [run_analysis_writesOf workbook question key env content polls elapsed
      hopen hpoll]
    exact List.mem_map_of_mem _ (List.mem_filter.mpr ⟨hmem, by simp [hfile]⟩)
  · intro s hs hne
    simp [chosenFilename, hs, hne]
  · intro hs
    simp [chosenFilename, hs]

/-- Witness for C5 on an artifact with no suggested filename: the file is
written under its remote identifier. -/
theorem claim5_witness :
    openForRead noNameEnv "sales.xlsx" = some "workbook-bytes"
    ∧ awaitCompletion noNameEnv.statuses noNameEnv.pollInterval noNameEnv.timeout
        = .completed 3 6
    ∧ (⟨"output_file", "f7", none⟩ : OutputItem) ∈ noNameEnv.runOutput
    ∧ Event.writeFile "f7" "content-f7"
        ∈ (run_analysis "sales.xlsx" "q" none noNameEnv).trace
    ∧ chosenFilename ⟨"output_file", "f7", none⟩ = "f7" := by
  have h := claim5_destination_filenames "sales.xlsx" "q" none noNameEnv
    "workbook-bytes" 3 6 (by decide) (by decide)
    ⟨"output_file", "f7", none⟩ (by decide) (by decide)
  exact ⟨by decide, by decide, by decide, h.1, h.2.2 rfl⟩

/-- Claim C6: fetching the artifacts of the same completed job twice into the
same destination leaves the same final file set as fetching them once — at
every path the disk reads the same after one pass or two. -/
theorem claim6_fetch_idempotent (fc : String → String)
    (items : List OutputItem) (d : Disk) (path : String) :
    lookup (downloadAll fc items (downloadAll fc items d).1).1 path
      = lookup (downloadAll fc items d).1 path := by
  rw [downloadAll_lookup, downloadAll_lookup]
  cases lastWrite fc items path <;> simp [Option.or]

/-- Claim C7: the run creates one conversation thread, appends exactly one
user-role message carrying the question as text and the uploaded file's
identifier as attachment, and then submits the job bound to that thread and
the created agent — in that order. -/
theorem claim7_startjob_steps (workbook question : String)
    (key : Option String) (env : Env) (content : String)
    (hopen : openForRead env workbook = some content) :
    (∃ tail, (run_analysis workbook question key env).trace
        = Event.filesCreate workbook "assistants"
          :: Event.agentsCreate analystAgentReq
          :: Event.threadsCreate
          :: Event.messagesCreate env.threadId "user" question [env.uploadedId]
          :: Event.runsCreate env.threadId env.agentId
          :: tail)
    ∧ messagesOf (run_analysis workbook question key env).trace
        = [(env.threadId, "user", question, [env.uploadedId])] := by
  obtain ⟨tail, htr, _⟩ :=
    run_analysis_trace_shape workbook question key env content hopen
  exact ⟨⟨tail, htr⟩,
    run_analysis_messagesOf workbook question key env content hopen⟩

/-- Witness for C7 on the success scenario. -/
theorem claim7_witness :
    openForRead sampleEnv "sales.xlsx" = some "workbook-bytes"
    ∧ (∃ tail, (run_analysis "sales.xlsx" "q" none sampleEnv).trace
        = Event.filesCreate "sales.xlsx" "assistants"
          :: Event.agentsCreate analystAgentReq
          :: Event.threadsCreate
          :: Event.messagesCreate "thread-1" "user" "q" ["file-abc"]
          :: Event.runsCreate "thread-1" "agent-1"
          :: tail)
    ∧ messagesOf (run_analysis "sales.xlsx" "q" none sampleEnv).trace
        = [("thread-1", "user", "q", ["file-abc"])] := by
  have h := claim7_startjob_steps "sales.xlsx" "q" none sampleEnv
    "workbook-bytes" (by decide)
  exact ⟨by decide, h.1, h.2⟩

/-- A `writeFile` event of the trace is a recorded disk write. -/
theorem mem_writesOf_of_writeFile_mem (tr : List Event) (f c : String)
    (h : Event.writeFile f c ∈ tr) : (f, c) ∈ writesOf tr := by
  simp only [writesOf, List.mem_filterMap]
  exact ⟨_, h, rfl⟩

/-- Environment in which the remote job emits a file artifact whose suggested
filename coincides with the (CWD-relative) workbook path. -/
def clashEnv : Env where
  localDisk := [("sales.xlsx", "original-workbook")]
  unreadable := []
  uploadedId := "file-abc"
  agentId := "agent-1"
  threadId := "thread-1"
  statuses := fun _ => .succeeded
  pollInterval := 2
  timeout := 10
  outputText := ""
  runOutput := [⟨"output_file", "f9", some "sales.xlsx"⟩]
  fileContent := fun _ => "generated-chart"

/-- Counterexample to C8 as stated: with workbook `sales.xlsx` in the current
working directory and a succeeded job whose output list holds a file artifact
suggested-named `sales.xlsx`, the download loop writes to the workbook path
and replaces the workbook's content. -/
theorem claim8_counterexample :
    openForRead clashEnv "sales.xlsx" = some "original-workbook"
    ∧ Event.writeFile "sales.xlsx" "generated-chart"
        ∈ (run_analysis "sales.xlsx" "q" none clashEnv).trace
    ∧ lookup (run_analysis "sales.xlsx" "q" none clashEnv).disk "sales.xlsx"
        = some "generated-chart" := by
  decide

/-- Claim C8 as amended: the run opens the workbook only for reading during
upload, and — provided no file-kind artifact's chosen filename equals the
workbook path — no later step writes to the workbook path: the trace holds no
`writeFile` on it and its disk content is unchanged.  (The proviso is forced
by `claim8_counterexample`: the download loop writes artifacts into the same
directory namespace as a relative workbook path.) -/
theorem claim8_workbook_untouched (workbook question : String)
    (key : Option String) (env : Env)
    (hnc : ∀ it ∈ env.runOutput,
      it.type = "output_file" → chosenFilename it ≠ workbook) :
    (∀ c, Event.writeFile workbook c ∉ (run_analysis workbook question key env).trace)
    ∧ lookup (run_analysis workbook question key env).disk workbook
        = lookup env.localDisk workbook := by
  cases hopen : openForRead env workbook with
  | none =>
    constructor
    · intro c hc
      simp [run_analysis, hopen] at hc
    · simp [run_analysis, hopen]
  | some content =>
    cases houtcome : awaitCompletion env.statuses env.pollInterval env.timeout with
    | timedOut polls elapsed =>
      constructor
      · intro c hc
        simp [run_analysis, hopen, houtcome, pollEvents] at hc
      · simp [run_analysis, hopen, houtcome]
    | jobFailed s polls elapsed =>
      constructor
      · intro c hc
        simp [run_analysis, hopen, houtcome, pollEvents] at hc
      · simp [run_analysis, hopen, houtcome]
    | completed polls elapsed =>
      constructor
      · intro c hc
        have hw := mem_writesOf_of_writeFile_mem _ workbook c hc
        rw [run_analysis_writesOf workbook question key env content polls
          elapsed hopen houtcome] at hw
        simp only [List.mem_map, List.mem_filter] at hw
        obtain ⟨it, ⟨hmem, hty⟩, heq⟩ := hw
        exact hnc it hmem (by simpa using hty) (by simpa using congrArg Prod.fst heq)
      · have hdisk : (run_analysis workbook question key env).disk
            = (downloadAll env.fileContent env.runOutput env.localDisk).1 := by
          simp [run_analysis, hopen, houtcome]
        rw [hdisk, downloadAll_lookup,
          lastWrite_eq_none env.fileContent workbook env.runOutput hnc]
        rfl

/-- Witness for the amended C8 on the success scenario, whose artifact names
do not collide with the workbook path. -/
theorem claim8_witness :
    (∀ it ∈ sampleEnv.runOutput,
      it.type = "output_file" → chosenFilename it ≠ "sales.xlsx")
    ∧ ((∀ c, Event.writeFile "sales.xlsx" c
          ∉ (run_analysis "sales.xlsx" "q" none sampleEnv).trace)
      ∧ lookup (run_analysis "sales.xlsx" "q" none sampleEnv).disk "sales.xlsx"
          = lookup sampleEnv.localDisk "sales.xlsx") := by
  have hnc : ∀ it ∈ sampleEnv.runOutput,
      it.type = "output_file" → chosenFilename it ≠ "sales.xlsx" := by decide
  exact ⟨hnc, claim8_workbook_untouched "sales.xlsx" "q" none sampleEnv hnc⟩

/-- Claim C9: when `--question` is absent, the question submitted in the user
message is the generic "what insights" default; when it is supplied, the
supplied text is submitted. -/
theorem claim9_question_default (workbook : String) (key : Option String)
    (env : Env) (content : String) (q : String)
    (hopen : openForRead env workbook = some content) :
    messagesOf (main workbook none key env).trace
      = [(env.threadId, "user",
          "What insights can you derive from this workbook?", [env.uploadedId])]
    ∧ messagesOf (main workbook (some q) key env).trace
      = [(env.threadId, "user", q, [env.uploadedId])] := by
  constructor
  · exact run_analysis_messagesOf workbook
      "What insights can you derive from this workbook?" key env content hopen
  · exact run_analysis_messagesOf workbook q key env content hopen

/-- Witness for C9 on the success scenario. -/
theorem claim9_witness :
    openForRead sampleEnv "sales.xlsx" = some "workbook-bytes"
    ∧ messagesOf (main "sales.xlsx" none none sampleEnv).trace
        = [("thread-1", "user",
            "What insights can you derive from this workbook?", ["file-abc"])]
    ∧ messagesOf (main "sales.xlsx" (some "What drove Q3?") none sampleEnv).trace
        = [("thread-1", "user", "What drove Q3?", ["file-abc"])] := by
  have h := claim9_question_default "sales.xlsx" none sampleEnv
    "workbook-bytes" "What drove Q3?" (by decide)
  exact ⟨by decide, h.1, h.2⟩

/-- Claim C10: the agent definition created is the same for every invocation,
whatever the workbook, question, api key and environment: name
"Spreadsheet Analyst", model "gpt-4.1", the `ANALYST_INSTRUCTIONS` text
verbatim, and exactly one tool capability, the code interpreter. -/
theorem claim10_agent_constant (w1 q1 w2 q2 : String) (k1 k2 : Option String)
    (e1 e2 : Env) (c1 c2 : String)
    (h1 : openForRead e1 w1 = some c1) (h2 : openForRead e2 w2 = some c2) :
    agentReqsOf (run_analysis w1 q1 k1 e1).trace
      = [⟨"Spreadsheet Analyst", "gpt-4.1", ANALYST_INSTRUCTIONS,
          [⟨"code_interpreter"⟩]⟩]
    ∧ agentReqsOf (run_analysis w1 q1 k1 e1).trace
      = agentReqsOf (run_analysis w2 q2 k2 e2).trace := by
  have a1 := run_analysis_agentReqsOf w1 q1 k1 e1 c1 h1
  have a2 := run_analysis_agentReqsOf w2 q2 k2 e2 c2 h2
  exact ⟨a1, by rw [a1, a2]⟩

/-- Witness for C10 on two invocations differing in question, api key and
remote behaviour. -/
theorem claim10_witness :
    openForRead sampleEnv "sales.xlsx" = some "workbook-bytes"
    ∧ openForRead failedEnv "sales.xlsx" = some "workbook-bytes"
    ∧ agentReqsOf (run_analysis "sales.xlsx" "q" none sampleEnv).trace
        = [⟨"Spreadsheet Analyst", "gpt-4.1", ANALYST_INSTRUCTIONS,
            [⟨"code_interpreter"⟩]⟩]
    ∧ agentReqsOf (run_analysis "sales.xlsx" "q" none sampleEnv).trace
        = agentReqsOf
            (run_analysis "sales.xlsx" "another question" (some "sk-1") failedEnv).trace := by
  have h := claim10_agent_constant "sales.xlsx" "q" "sales.xlsx"
    "another question" none (some "sk-1") sampleEnv failedEnv
    "workbook-bytes" "workbook-bytes" (by decide) (by decide)
  exact ⟨by decide, by decide, h.1, h.2⟩

end SpreadsheetAgent
